import Mathlib

/-!
Shallow embedding of the Rust-PubSub-Server message-plane runtime
(src/broker.rs, src/handlers.rs, src/cache.rs, src/app_state.rs,
src/websocket.rs, src/socketio.rs) and proofs about it.

Conventions of the embedding:
* `f64` timestamps (seconds since epoch) are modelled as `ℚ`;
* the SQLite store is modelled as three tables held in a `Store` record,
  with the autoincrement row ids made explicit;
* fallible foreign calls (sqlx command execution, `serde_json::from_str`)
  are modelled by explicit oracle parameters (`Bool` flags / an
  `decode : String → Option Json` function);
* channels are modelled by the list of values sent on them.
-/

/-- Minimal JSON value type standing for `serde_json::Value`. -/
inductive Json : Type where
  | null : Json
  | bool : Bool → Json
  | num : ℚ → Json
  | str : String → Json
  | arr : List Json → Json
  | obj : List (String × Json) → Json

namespace PubSub

/-- Row of the `messages` table
(`id autoincrement, topic, message_id, message, producer, timestamp`). -/
structure MsgRow where
  id : Nat
  topic : String
  message_id : String
  message : String
  producer : String
  timestamp : ℚ
deriving DecidableEq

/-- Row of the `consumptions` table
(`id autoincrement, consumer, topic, message_id, message, timestamp`). -/
structure ConsRow where
  id : Nat
  consumer : String
  topic : String
  message_id : String
  message : String
  timestamp : ℚ
deriving DecidableEq

/-- Row of the `subscriptions` table (`sid, consumer, topic, connected_at`). -/
structure SubRow where
  sid : String
  consumer : String
  topic : String
  connected_at : ℚ
deriving DecidableEq

/-- The SQLite store: the three tables touched by the broker, plus the
next autoincrement ids of the two append-only tables. -/
structure Store where
  subscriptions : List SubRow
  messages : List MsgRow
  consumptions : List ConsRow
  nextMsgId : Nat
  nextConsId : Nat
deriving DecidableEq

/-- The empty store. -/
def Store.empty : Store :=
  { subscriptions := [], messages := [], consumptions := [],
    nextMsgId := 0, nextConsId := 0 }

/-- `DbCommand` from src/broker.rs: the commands sent to the DB worker. -/
inductive DbCommand : Type where
  | RegisterSubscription (sid consumer topic : String) (connected_at : ℚ)
  | SaveMessage (topic message_id message producer : String) (timestamp : ℚ)
  | SaveConsumption (consumer topic message_id message : String) (timestamp : ℚ)
  | UnregisterClient (sid : String)
deriving DecidableEq

/-- Effect of one `DbCommand`'s SQL statement on the store, mirroring the
four statements in `Broker::flush_batch`.

`RegisterSubscription` runs `INSERT OR REPLACE INTO subscriptions ...`.
Modelled from the spec: the migration SQL files are not under src/, and
§6 of the spec gives the schema `subscriptions(sid pk, ...)`; SQLite's
`INSERT OR REPLACE` therefore deletes any existing row with the same
`sid` before inserting.  `SaveMessage` / `SaveConsumption` are plain
inserts into the autoincrement tables; `UnregisterClient` runs
`DELETE FROM subscriptions WHERE sid = ?`. -/
def applyCmd (db : Store) : DbCommand → Store
  | .RegisterSubscription sid consumer topic connected_at =>
      { db with subscriptions :=
          db.subscriptions.filter (fun r => r.sid ≠ sid) ++
            [⟨sid, consumer, topic, connected_at⟩] }
  | .SaveMessage topic message_id message producer timestamp =>
      { db with
          messages := db.messages ++
            [⟨db.nextMsgId, topic, message_id, message, producer, timestamp⟩],
          nextMsgId := db.nextMsgId + 1 }
  | .SaveConsumption consumer topic message_id message timestamp =>
      { db with
          consumptions := db.consumptions ++
            [⟨db.nextConsId, consumer, topic, message_id, message, timestamp⟩],
          nextConsId := db.nextConsId + 1 }
  | .UnregisterClient sid =>
      { db with subscriptions := db.subscriptions.filter (fun r => r.sid ≠ sid) }

/-- Sequential application of a batch in FIFO (queue) order. -/
def applyBatch (db : Store) (batch : List DbCommand) : Store :=
  batch.foldl applyCmd db

/-- `fail cmd tx = true` models the sqlx execution of `cmd` returning
`Err` when the in-transaction state is `tx` (disk/SQL failures are
external to the program, hence an oracle parameter). -/
def noFail (fail : DbCommand → Store → Bool) : Store → List DbCommand → Prop
  | _, [] => True
  | tx, cmd :: rest => fail cmd tx = false ∧ noFail fail (applyCmd tx cmd) rest

instance noFailDecidable (fail : DbCommand → Store → Bool) :
    ∀ (tx : Store) (batch : List DbCommand), Decidable (noFail fail tx batch)
  | _, [] => .isTrue trivial
  | tx, cmd :: rest =>
      @instDecidableAnd _ _ _ (noFailDecidable fail (applyCmd tx cmd) rest)

/-- Inner loop of `Broker::flush_batch`: drains the buffer in FIFO order
inside the open transaction `tx`, stopping at the first command whose
execution fails.  Returns the final in-transaction state and whether an
error occurred (`has_error`). -/
def flushLoop (fail : DbCommand → Store → Bool) (tx : Store) :
    List DbCommand → Store × Bool
  | [] => (tx, false)
  | cmd :: rest =>
      if fail cmd tx then (tx, true)
      else flushLoop fail (applyCmd tx cmd) rest

/-- `Broker::flush_batch` (src/broker.rs): takes the committed store and
the buffered batch; opens one transaction (`beginOk = false` models
`db.begin()` failing, in which case the batch is cleared and nothing
runs); executes the commands in FIFO order; commits if every command
succeeded, otherwise rolls the whole transaction back.  Returns the
committed store and the remaining buffer (the buffer is drained in every
path, so it is always `[]`). -/
def flushBatch (fail : DbCommand → Store → Bool) (beginOk : Bool)
    (db : Store) (batch : List DbCommand) : Store × List DbCommand :=
  if batch.isEmpty then (db, batch)
  else if ¬beginOk then (db, [])
  else
    let (tx, hasError) := flushLoop fail db batch
    if hasError then (db, []) else (tx, [])

/-- `MAX_MESSAGES` (src/broker.rs line 53). -/
def MAX_MESSAGES : Nat := 10000

/-- `MAX_CONSUMPTIONS` (src/broker.rs line 55). -/
def MAX_CONSUMPTIONS : Nat := 10000

/-- `MAX_AGE_HOURS` (src/broker.rs line 57). -/
def MAX_AGE_HOURS : ℚ := 24

/-- `ORDER BY timestamp DESC` on a list of rows with a timestamp
projection: sorted newest first. -/
def sortByTsDesc {α : Type} (ts : α → ℚ) (rows : List α) : List α :=
  rows.mergeSort (fun a b => ts b ≤ ts a)

/-- `Broker::purge_old_data` (src/broker.rs lines 241-326) as a function
of the wall-clock time `now`.  `failMsgs` / `failCons` model the two
DELETE statements failing (each failure rolls the transaction back,
leaving the store unchanged).  Each DELETE removes the rows whose id is
not among the `MAX_MESSAGES` (resp. `MAX_CONSUMPTIONS`) most recent by
timestamp, or whose timestamp is below `now − MAX_AGE_HOURS·3600`.
Returns the resulting store and whether the transaction committed. -/
def purge_old_data (failMsgs failCons : Bool) (now : ℚ) (db : Store) :
    Store × Bool :=
  let cutoff := now - MAX_AGE_HOURS * 3600
  if failMsgs then (db, false)
  else if failCons then (db, false)
  else
    let keptMsgIds := ((sortByTsDesc (·.timestamp) db.messages).take MAX_MESSAGES).map (·.id)
    let keptConsIds := ((sortByTsDesc (·.timestamp) db.consumptions).take MAX_CONSUMPTIONS).map (·.id)
    ({ db with
        messages := db.messages.filter
          (fun r => r.id ∈ keptMsgIds ∧ ¬ r.timestamp < cutoff),
        consumptions := db.consumptions.filter
          (fun r => r.id ∈ keptConsIds ∧ ¬ r.timestamp < cutoff) },
     true)

/-- Value stored for one session in the in-memory subscription registry:
`(consumer, topics, connected_at)` (src/broker.rs line 72). -/
structure RegEntry where
  consumer : String
  topics : List String
  connected_at : ℚ
deriving DecidableEq

/-- The in-memory registry `HashMap<String, (String, Vec<String>, f64)>`,
modelled as an association list keyed by session id (the `HashMap` keeps
at most one entry per key; lookup and update act on the first match). -/
abbrev Registry : Type := List (String × RegEntry)

/-- Replace the value of the first entry with key `sid` (the `HashMap`
update underlying `entry().and_modify(...)`). -/
def setEntry : Registry → String → RegEntry → Registry
  | [], _, _ => []
  | (k, v) :: rest, sid, nv =>
      if k = sid then (k, nv) :: rest else (k, v) :: setEntry rest sid nv

/-- The registry mutation of `Broker::register_subscription`
(src/broker.rs lines 345-356): `entry(sid).and_modify(push topic if
absent).or_insert((consumer, vec![topic], connected_at))`. -/
def registryAdd (subs : Registry) (sid consumer topic : String)
    (connected_at : ℚ) : Registry :=
  match subs.lookup sid with
  | some e =>
      setEntry subs sid
        { e with topics := if topic ∈ e.topics then e.topics else e.topics ++ [topic] }
  | none => subs ++ [(sid, ⟨consumer, [topic], connected_at⟩)]

/-- A `BroadcastEvent` sent on the broker's global event bus
(src/models.rs): an event type tag and a JSON payload. -/
structure BroadcastEvent where
  event_type : String
  data : Json

/-- Outputs of one broker operation: the registry afterwards, the
`DbCommand`s enqueued to the batcher (in order), and the events emitted
on the event bus (in order). -/
structure BrokerOut where
  registry : Registry
  cmds : List DbCommand
  events : List BroadcastEvent

/-- `Broker::register_subscription` (src/broker.rs lines 329-369): reject
silently when any argument is empty; otherwise enqueue
`RegisterSubscription`, update the registry with the idempotent append
rule, and emit a `new_client` event.  `now` stands for
`current_timestamp()`. -/
def register_subscription (subs : Registry) (sid consumer topic : String)
    (now : ℚ) : BrokerOut :=
  if sid = "" ∨ consumer = "" ∨ topic = "" then
    { registry := subs, cmds := [], events := [] }
  else
    { registry := registryAdd subs sid consumer topic now,
      cmds := [.RegisterSubscription sid consumer topic now],
      events := [⟨"new_client",
        .obj [("consumer", .str consumer), ("topic", .str topic),
              ("connected_at", .num now)]⟩] }

/-- `Broker::unregister_client` (src/broker.rs lines 372-400): snapshot
the registry entry, enqueue `UnregisterClient`, remove the entry, and
emit one `client_disconnected` event per topic the session had. -/
def unregister_client (subs : Registry) (sid : String) : BrokerOut :=
  let clientInfo := subs.lookup sid
  { registry := subs.filter (fun p => p.1 ≠ sid),
    cmds := [.UnregisterClient sid],
    events :=
      match clientInfo with
      | some e => e.topics.map (fun topic =>
          ⟨"client_disconnected",
           .obj [("consumer", .str e.consumer), ("topic", .str topic)]⟩)
      | none => [] }

/-- `serialize : Json → String` stands for `serde_json::Value::to_string`
(a foreign library function); it is a parameter of the operations that
serialize message bodies. -/
def Serializer : Type := Json → String

/-- `Broker::save_message` (src/broker.rs lines 403-436): stamp a
timestamp, enqueue `SaveMessage` with the JSON-serialized body, emit a
`new_message` event carrying the unserialized body. -/
def save_message (ser : Serializer) (subs : Registry)
    (topic message_id : String) (message : Json) (producer : String)
    (now : ℚ) : BrokerOut :=
  { registry := subs,
    cmds := [.SaveMessage topic message_id (ser message) producer now],
    events := [⟨"new_message",
      .obj [("topic", .str topic), ("message_id", .str message_id),
            ("message", message), ("producer", .str producer),
            ("timestamp", .num now)]⟩] }

/-- `Broker::save_consumption` (src/broker.rs lines 439-471). -/
def save_consumption (ser : Serializer) (subs : Registry)
    (consumer topic message_id : String) (message : Json) (now : ℚ) :
    BrokerOut :=
  { registry := subs,
    cmds := [.SaveConsumption consumer topic message_id (ser message) now],
    events := [⟨"new_consumption",
      .obj [("consumer", .str consumer), ("topic", .str topic),
            ("message_id", .str message_id), ("message", message),
            ("timestamp", .num now)]⟩] }

/-- `MessageInfo` (src/models.rs). -/
structure MessageInfo where
  topic : String
  message_id : String
  message : Json
  producer : String
  timestamp : ℚ

/-- `ConsumptionInfo` (src/models.rs). -/
structure ConsumptionInfo where
  consumer : String
  topic : String
  message_id : String
  message : Json
  timestamp : ℚ

/-- `decode : String → Option Json` stands for
`serde_json::from_str::<serde_json::Value>` (a foreign library
function): `none` models a parse error. -/
def Decoder : Type := String → Option Json

/-- The error envelope substituted for an unparsable stored body:
`{"error": "Invalid JSON", "raw": <original>}` (src/broker.rs
lines 514-516). -/
def invalidJsonEnvelope (raw : String) : Json :=
  .obj [("error", .str "Invalid JSON"), ("raw", .str raw)]

/-- `SELECT ... FROM messages ORDER BY timestamp DESC LIMIT 100`
applied to the stored table. -/
def messagesQuery (db : Store) : List MsgRow :=
  (sortByTsDesc (·.timestamp) db.messages).take 100

/-- `SELECT ... FROM consumptions ORDER BY timestamp DESC LIMIT 100`. -/
def consumptionsQuery (db : Store) : List ConsRow :=
  (sortByTsDesc (·.timestamp) db.consumptions).take 100

/-- Row post-processing of `Broker::get_messages`: parse the stored body
back to JSON, substituting the error envelope on parse failure. -/
def msgRowToInfo (decode : Decoder) (r : MsgRow) : MessageInfo :=
  { topic := r.topic, message_id := r.message_id,
    message := (decode r.message).getD (invalidJsonEnvelope r.message),
    producer := r.producer, timestamp := r.timestamp }

/-- Row post-processing of `Broker::get_consumptions`. -/
def consRowToInfo (decode : Decoder) (r : ConsRow) : ConsumptionInfo :=
  { consumer := r.consumer, topic := r.topic, message_id := r.message_id,
    message := (decode r.message).getD (invalidJsonEnvelope r.message),
    timestamp := r.timestamp }

/-- `Broker::get_messages` (src/broker.rs lines 502-533).  `qfail`
models the sqlx query returning `Err`, in which case an empty vector is
returned. -/
def get_messages (decode : Decoder) (qfail : Bool) (db : Store) :
    List MessageInfo :=
  if qfail then [] else (messagesQuery db).map (msgRowToInfo decode)

/-- `Broker::get_consumptions` (src/broker.rs lines 536-565). -/
def get_consumptions (decode : Decoder) (qfail : Bool) (db : Store) :
    List ConsumptionInfo :=
  if qfail then [] else (consumptionsQuery db).map (consRowToInfo decode)

/-- A graph link (src/models.rs `Link`). -/
structure Link where
  source : String
  target : String
  link_type : String
deriving DecidableEq

/-- `GraphState` (src/models.rs). -/
structure GraphState where
  producers : List String
  consumers : List String
  topics : List String
  links : List Link
deriving DecidableEq

/-- `SELECT DISTINCT` projection: the distinct values in first-occurrence
order. -/
def distinctVals {α : Type} [DecidableEq α] (l : List α) : List α :=
  l.dedup

/-- `Broker::get_graph_state` (src/broker.rs lines 568-625).  The five
concurrent queries can each fail independently; a failed query
contributes an empty slot (`unwrap_or_default` / skipped `if let Ok`).
Consume links come from `SELECT topic, consumer FROM subscriptions`;
publish links from `SELECT DISTINCT producer, topic FROM messages`. -/
def get_graph_state (db : Store)
    (failProducers failConsumers failTopics failSubs failPubs : Bool) :
    GraphState :=
  let producers := if failProducers then []
    else distinctVals (db.messages.map (·.producer))
  let consumers := if failConsumers then []
    else distinctVals (db.subscriptions.map (·.consumer) ++
      db.consumptions.map (·.consumer))
  let topics := if failTopics then []
    else distinctVals (db.messages.map (·.topic) ++
      db.subscriptions.map (·.topic))
  let consumeLinks := if failSubs then []
    else db.subscriptions.map (fun r => Link.mk r.topic r.consumer "consume")
  let publishLinks := if failPubs then []
    else (distinctVals (db.messages.map (fun r => (r.producer, r.topic)))).map
      (fun p => Link.mk p.1 p.2 "publish")
  { producers := producers, consumers := consumers, topics := topics,
    links := consumeLinks ++ publishLinks }

/-- One cache slot of `QueryCache` (src/cache.rs):
`Option<(value, filled_at)>`, with the fill instant as a ℚ time. -/
abbrev CacheSlot (T : Type) : Type := Option (T × ℚ)

/-- The TTL passed by `AppState::new` via `QueryCache::new(2)`
(src/app_state.rs line 36, src/cache.rs `Duration::from_secs`), in
seconds. -/
def cacheTTL : ℚ := 2

/-- Result of `get_or_fetch_cached` in the embedding: the returned value,
the cache slot afterwards, and whether the cached value was returned
(the early-return on a fresh slot). -/
structure CacheOut (T : Type) where
  result : T
  slot : CacheSlot T
  usedCache : Bool

/-- `get_or_fetch_cached` (src/handlers.rs lines 15-65).  `fetched` is
the value `fetch_fn()` would produce; `now` is the current instant, so
`timestamp.elapsed() < ttl` reads `now − filled_at < ttl`.  When
`dashboard_enabled` is false the function returns the fresh value
without reading or writing the slot; on a fresh cached entry it returns
the cached clone and leaves the slot alone; otherwise it fetches and
overwrites the slot with `(fetched, now)`. -/
def get_or_fetch_cached {T : Type} (slot : CacheSlot T) (ttl : ℚ)
    (fetched : T) (dashboard_enabled : Bool) (now : ℚ) : CacheOut T :=
  if ¬dashboard_enabled then
    { result := fetched, slot := slot, usedCache := false }
  else
    match slot with
    | some (data, filled_at) =>
        if now - filled_at < ttl then
          { result := data, slot := slot, usedCache := true }
        else
          { result := fetched, slot := some (fetched, now), usedCache := false }
    | none =>
        { result := fetched, slot := some (fetched, now), usedCache := false }

/-- `PublishRequest` (src/models.rs): the body of `POST /publish`. -/
structure PublishRequest where
  topic : String
  message_id : String
  message : Json
  producer : String

/-- `publish_handler` (src/handlers.rs lines 68-122): returns 400 when
any of topic / message_id / producer is empty (before any effect);
otherwise calls `Broker::save_message` (one `SaveMessage` command, one
`new_message` bus event) and emits the payload to the Socket.IO room
named after the topic and to the wildcard room `__all__` (both the
`parallel-emit` and the `sequential-emit` strategies target exactly
these two rooms).  The second component lists the rooms targeted, in
order. -/
def publish_handler (ser : Serializer) (subs : Registry)
    (p : PublishRequest) (now : ℚ) :
    Except Nat Json × BrokerOut × List String :=
  if p.topic = "" ∨ p.message_id = "" ∨ p.producer = "" then
    (.error 400, { registry := subs, cmds := [], events := [] }, [])
  else
    (.ok (.obj [("status", .str "ok")]),
     save_message ser subs p.topic p.message_id p.message p.producer now,
     [p.topic, "__all__"])

/-- `socket.join(room)`: Socket.IO room membership is a set; joining an
already-joined room is a no-op. -/
def joinRoom (rooms : List String) (r : String) : List String :=
  if r ∈ rooms then rooms else rooms ++ [r]

/-- The room mutation of the Socket.IO `subscribe` handler
(src/socketio.rs lines 43-57): for each requested topic, `*` runs
`leave_all()` then `join("__all__")`, any other topic runs
`join(topic)`. -/
def sioSubscribeRooms (rooms : List String) (topics : List String) :
    List String :=
  topics.foldl (fun rs t => if t = "*" then ["__all__"] else joinRoom rs t) rooms

/-- Rooms a Socket.IO emission for a publish of `topic` reaches in a
session holding room set `rooms`: the handler emits to the room named
`topic` and then to `__all__`; the session receives each emission whose
target room it is in. -/
def sioDeliveries (rooms : List String) (topic : String) : List String :=
  [topic, "__all__"].filter (fun r => r ∈ rooms)

/-- Observable effects of a single operation of the program, as relevant
to the fan-out fabrics: commands enqueued to the batcher, events sent on
the global event bus, Socket.IO room emissions, sends into the per-topic
broadcast channels of `AppState.topic_channels`, and creations of
receivers on those channels (`tx.subscribe()` in the raw-WebSocket
subscribe handler). -/
inductive Effect : Type where
  | dbCmd (c : DbCommand)
  | busEvent (e : BroadcastEvent)
  | roomEmit (room : String) (p : PublishRequest)
  | topicChannelSend (topic : String) (payload : String)
  | topicChannelSubscribe (topic : String)

/-- Is this effect a send into a per-topic broadcast channel of
`AppState.topic_channels`? -/
def Effect.isTopicChannelSend : Effect → Bool
  | .topicChannelSend _ _ => true
  | _ => false

/-- The operations the program's handlers expose (HTTP handlers,
Socket.IO event handlers, raw-WebSocket frame handlers, disconnects).
The read-only handlers and the dashboard toggles are grouped under
`readOnlyOp` as they enqueue no command and send on no channel. -/
inductive Op : Type where
  | publish (p : PublishRequest) (now : ℚ)
  | sioSubscribe (sid consumer : String) (topics : List String) (now : ℚ)
  | wsSubscribe (sid consumer : String) (topics : List String) (now : ℚ)
  | consumed (consumer topic message_id : String) (message : Json) (now : ℚ)
  | disconnect (sid : String)
  | readOnlyOp

/-- Registry update and effects of one `subscribe` request: the handler
loops over the topics, calling `Broker::register_subscription` for each
(threading the registry).  When `wsChannels` is true (raw-WebSocket
transport, src/websocket.rs lines 100-153) each iteration additionally
creates a receiver on the topic's broadcast channel; the Socket.IO
transport joins rooms instead (room state is per-session, not an
effect on a shared channel).  Neither transport sends on a topic
channel. -/
def subscribeFold (subs : Registry) (sid consumer : String) (now : ℚ)
    (wsChannels : Bool) : List String → Registry × List Effect
  | [] => (subs, [])
  | t :: rest =>
      let out := register_subscription subs sid consumer t now
      let here := out.cmds.map Effect.dbCmd ++ out.events.map Effect.busEvent ++
        (if wsChannels then [Effect.topicChannelSubscribe t] else [])
      let (subs', eff) := subscribeFold out.registry sid consumer now wsChannels rest
      (subs', here ++ eff)

/-- One step of the system: the registry afterwards and the effects
produced, transcribed from the corresponding handler. -/
def stepOp (ser : Serializer) (subs : Registry) : Op → Registry × List Effect
  | .publish p now =>
      let (_, out, rooms) := publish_handler ser subs p now
      (out.registry,
       out.cmds.map Effect.dbCmd ++ out.events.map Effect.busEvent ++
         rooms.map (fun r => Effect.roomEmit r p))
  | .sioSubscribe sid consumer topics now =>
      subscribeFold subs sid consumer now false topics
  | .wsSubscribe sid consumer topics now =>
      subscribeFold subs sid consumer now true topics
  | .consumed consumer topic message_id message now =>
      let out := save_consumption ser subs consumer topic message_id message now
      (out.registry,
       out.cmds.map Effect.dbCmd ++ out.events.map Effect.busEvent)
  | .disconnect sid =>
      let out := unregister_client subs sid
      (out.registry,
       out.cmds.map Effect.dbCmd ++ out.events.map Effect.busEvent)
  | .readOnlyOp => (subs, [])

/-- Effects of a whole trace of operations, threading the registry. -/
def traceEffects (ser : Serializer) (subs : Registry) :
    List Op → List Effect
  | [] => []
  | op :: rest =>
      let (subs', eff) := stepOp ser subs op
      eff ++ traceEffects ser subs' rest

/-- The payloads sent into the broadcast channel of topic `t` during a
trace (what a follower task for `t` could ever receive; a follower
created mid-trace receives a suffix of this list). -/
def sentOnTopicChannel (ser : Serializer) (subs : Registry)
    (ops : List Op) (t : String) : List String :=
  (traceEffects ser subs ops).filterMap (fun e =>
    match e with
    | .topicChannelSend topic payload => if topic = t then some payload else none
    | _ => none)

/-- What the topic-follower task of a raw-WebSocket session forwards
into the session's internal egress channel (src/websocket.rs
lines 126-148): exactly the payloads it receives from the topic's
broadcast channel, in order. -/
def wsFollowerForwards (ser : Serializer) (subs : Registry)
    (ops : List Op) (t : String) : List String :=
  sentOnTopicChannel ser subs ops t

/-- The bus events of a trace, in order. -/
def traceBusEvents (ser : Serializer) (subs : Registry) (ops : List Op) :
    List BroadcastEvent :=
  (traceEffects ser subs ops).filterMap (fun e =>
    match e with
    | .busEvent ev => some ev
    | _ => none)

/-- The strings pushed into a raw-WebSocket session's internal egress
channel over a trace: the bus-relay task pushes every bus event it can
serialize (src/websocket.rs lines 41-51; `eventSer` models
`serde_json::to_string`, `none` a serialization error), and each
topic-follower task pushes what it forwards.  The two contributions are
listed one after the other; the real interleaving is immaterial here
because the follower contribution is proved empty. -/
def wsEgressStrings (ser : Serializer) (eventSer : BroadcastEvent → Option String)
    (subs : Registry) (ops : List Op) (followedTopics : List String) :
    List String :=
  (traceBusEvents ser subs ops).filterMap eventSer ++
    followedTopics.flatMap (wsFollowerForwards ser subs ops)

/-- The topic list the registry holds for a session (empty when the
session is absent). -/
def topicsOf (subs : Registry) (sid : String) : List String :=
  ((subs.lookup sid).map (·.topics)).getD []

/-- Store obtained by flushing two `RegisterSubscription` commands for
the same session and two distinct topics through the batcher, starting
from the empty store (concrete instance for C5). -/
def twoTopicStore : Store :=
  (flushBatch (fun _ _ => false) true Store.empty
    [.RegisterSubscription "s1" "c1" "t1" 0,
     .RegisterSubscription "s1" "c1" "t2" 1]).1

/-- Store obtained by registering one subscription and then flushing the
session's `UnregisterClient`, starting from the empty store (concrete
instance for C8). -/
def regThenUnregStore : Store :=
  (flushBatch (fun _ _ => false) true Store.empty
    [.RegisterSubscription "s1" "c1" "t1" 0, .UnregisterClient "s1"]).1

/-!  Theorems. -/

/-- C7: the cached dashboard read returns the cached value iff dashboard
mode is enabled and the slot holds an entry younger than the 2-second
TTL; a fresh hit leaves the slot alone; otherwise the underlying query's
result is returned, and (when dashboard mode is enabled) overwrites the
slot; when dashboard mode is disabled the slot is neither used nor
written. -/
theorem get_or_fetch_cached_spec {T : Type} (slot : CacheSlot T)
    (fetched : T) (enabled : Bool) (now : ℚ) :
    ((get_or_fetch_cached slot cacheTTL fetched enabled now).usedCache = true ↔
      enabled = true ∧ ∃ d f, slot = some (d, f) ∧ now - f < cacheTTL)
    ∧ (∀ d f, slot = some (d, f) → now - f < cacheTTL → enabled = true →
        (get_or_fetch_cached slot cacheTTL fetched enabled now).result = d ∧
        (get_or_fetch_cached slot cacheTTL fetched enabled now).slot = slot)
    ∧ ((get_or_fetch_cached slot cacheTTL fetched enabled now).usedCache = false →
        (get_or_fetch_cached slot cacheTTL fetched enabled now).result = fetched ∧
        (get_or_fetch_cached slot cacheTTL fetched enabled now).slot =
          (if enabled then some (fetched, now) else slot))
    ∧ (enabled = false →
        (get_or_fetch_cached slot cacheTTL fetched enabled now).slot = slot ∧
        (get_or_fetch_cached slot cacheTTL fetched enabled now).usedCache = false) := by
  rcases slot with _ | ⟨d, f⟩ <;> cases enabled
  · simp [get_or_fetch_cached]
  · simp [get_or_fetch_cached]
  · simp [get_or_fetch_cached]
  · by_cases h : now - f < cacheTTL <;> simp [get_or_fetch_cached, h]
    · exact ⟨d, f, ⟨rfl, rfl⟩, h⟩
    · exact le_of_not_lt h

/-- C7 witness: a fresh cache hit returns the cached value; with the
dashboard disabled the slot is untouched. -/
theorem get_or_fetch_cached_spec_witness :
    (get_or_fetch_cached (T := ℕ) (some (5, 0)) cacheTTL 7 true 1).result = 5 ∧
    (get_or_fetch_cached (T := ℕ) (some (5, 0)) cacheTTL 7 false 10).slot = some (5, 0) :=
  ⟨((get_or_fetch_cached_spec (some (5, 0)) 7 true 1).2.1 5 0 rfl (by norm_num [cacheTTL]) rfl).1,
   ((get_or_fetch_cached_spec (some (5, 0)) 7 false 10).2.2.2 rfl).1⟩

/-- C10: `POST /publish` returns 400 iff topic, message_id or producer
is empty; in that case no command is enqueued and no event emitted (so
flushing changes no store); otherwise it returns `{"status":"ok"}`,
enqueues exactly one `SaveMessage` and emits exactly one `new_message`
event. -/
theorem publish_handler_validation (ser : Serializer) (subs : Registry)
    (p : PublishRequest) (now : ℚ) :
    (((publish_handler ser subs p now).1 = .error 400) ↔
      (p.topic = "" ∨ p.message_id = "" ∨ p.producer = ""))
    ∧ ((p.topic = "" ∨ p.message_id = "" ∨ p.producer = "") →
        (publish_handler ser subs p now).2.1.cmds = [] ∧
        (publish_handler ser subs p now).2.1.events = [] ∧
        ∀ db : Store, applyBatch db (publish_handler ser subs p now).2.1.cmds = db)
    ∧ (¬(p.topic = "" ∨ p.message_id = "" ∨ p.producer = "") →
        (publish_handler ser subs p now).1 = .ok (.obj [("status", .str "ok")]) ∧
        (publish_handler ser subs p now).2.1.cmds =
          [.SaveMessage p.topic p.message_id (ser p.message) p.producer now] ∧
        (publish_handler ser subs p now).2.1.events.map (·.event_type) =
          ["new_message"]) := by
  by_cases h : p.topic = "" ∨ p.message_id = "" ∨ p.producer = "" <;>
    simp [publish_handler, save_message, applyBatch, h]

/-- C10 witness: an empty producer is rejected with 400, leaving any
store unchanged; a fully populated request is accepted. -/
theorem publish_handler_validation_witness :
    (publish_handler (fun _ => "null") [] ⟨"T", "m1", Json.null, ""⟩ 0).1 = .error 400 ∧
    applyBatch Store.empty
      (publish_handler (fun _ => "null") [] ⟨"T", "m1", Json.null, ""⟩ 0).2.1.cmds =
      Store.empty ∧
    (publish_handler (fun _ => "null") [] ⟨"T", "m1", Json.null, "P"⟩ 0).1 =
      .ok (.obj [("status", .str "ok")]) :=
  ⟨(publish_handler_validation (fun _ => "null") [] ⟨"T", "m1", Json.null, ""⟩ 0).1.mpr
      (by simp),
   ((publish_handler_validation (fun _ => "null") [] ⟨"T", "m1", Json.null, ""⟩ 0).2.1
      (by simp)).2.2 Store.empty,
   ((publish_handler_validation (fun _ => "null") [] ⟨"T", "m1", Json.null, "P"⟩ 0).2.2
      (by simp)).1⟩

/-- Appending a fresh key to an association list makes lookup find it. -/
theorem lookup_append_single {β : Type} (l : List (String × β)) (sid : String)
    (x : β) (h : l.lookup sid = none) : (l ++ [(sid, x)]).lookup sid = some x := by
  induction l with
  | nil => simp [List.lookup]
  | cons hd tl ih =>
      obtain ⟨k, v⟩ := hd
      cases hbeq : sid == k with
      | true => simp [List.lookup, hbeq] at h
      | false =>
          simp only [List.lookup, hbeq] at h
          simpa only [List.cons_append, List.lookup, hbeq] using ih h

/-- Replacing the first entry of key `sid` by the value lookup already
returns is a no-op. -/
theorem setEntry_of_lookup_self (l : Registry) (sid : String) (e : RegEntry)
    (h : l.lookup sid = some e) : setEntry l sid e = l := by
  induction l with
  | nil => rfl
  | cons hd tl ih =>
      obtain ⟨k, v⟩ := hd
      cases hbeq : sid == k with
      | true =>
          have hk : k = sid := (beq_iff_eq.mp hbeq).symm
          simp only [List.lookup, hbeq, Option.some.injEq] at h
          simp [setEntry, hk, h]
      | false =>
          have hk : ¬ k = sid := fun hkk => by simp [hkk] at hbeq
          simp only [List.lookup, hbeq] at h
          simp [setEntry, hk, ih h]

/-- After `setEntry` on a present key, lookup returns the new value. -/
theorem lookup_setEntry_self (l : Registry) (sid : String) (v : RegEntry)
    (h : (l.lookup sid).isSome) : (setEntry l sid v).lookup sid = some v := by
  induction l with
  | nil => simp [List.lookup] at h
  | cons hd tl ih =>
      obtain ⟨k, w⟩ := hd
      cases hbeq : sid == k with
      | true =>
          have hk : k = sid := (beq_iff_eq.mp hbeq).symm
          simp [setEntry, hk, List.lookup]
      | false =>
          have hk : ¬ k = sid := fun hkk => by simp [hkk] at hbeq
          simp only [List.lookup, hbeq] at h
          simp only [setEntry, hk, if_false, List.lookup, hbeq]
          exact ih h

/-- C6: `register_subscription` is idempotent in the topic list — called
twice with the same `(sid, topic)` (non-empty arguments), the second
call leaves the registry unchanged and the session's topic list holds
exactly one occurrence of the topic. -/
theorem register_subscription_idem (subs : Registry) (sid c t : String)
    (ts1 ts2 : ℚ) (hsid : sid ≠ "") (hc : c ≠ "") (ht : t ≠ "")
    (hcount : (topicsOf subs sid).count t ≤ 1) :
    (register_subscription (register_subscription subs sid c t ts1).registry
        sid c t ts2).registry =
      (register_subscription subs sid c t ts1).registry
    ∧ (topicsOf (register_subscription (register_subscription subs sid c t ts1).registry
        sid c t ts2).registry sid).count t = 1 := by
  have hguard : ¬(sid = "" ∨ c = "" ∨ t = "") := by
    simp [hsid, hc, ht]
  simp only [register_subscription, hguard, if_false]
  rcases hsubs : subs.lookup sid with _ | e
  · -- session absent: first call appends a fresh entry with topics [t]
    have h1 : registryAdd subs sid c t ts1 =
        subs ++ [(sid, (⟨c, [t], ts1⟩ : RegEntry))] := by
      simp [registryAdd, hsubs]
    have hlk : (subs ++ [(sid, (⟨c, [t], ts1⟩ : RegEntry))]).lookup sid =
        some ⟨c, [t], ts1⟩ := lookup_append_single subs sid _ hsubs
    have h2 : registryAdd (subs ++ [(sid, (⟨c, [t], ts1⟩ : RegEntry))]) sid c t ts2 =
        subs ++ [(sid, (⟨c, [t], ts1⟩ : RegEntry))] := by
      simp only [registryAdd, hlk, List.mem_singleton, if_true, reduceIte]
      exact setEntry_of_lookup_self _ sid _ hlk
    rw [h1, h2]
    exact ⟨rfl, by simp [topicsOf, hlk]⟩
  · -- session present
    by_cases hmem : t ∈ e.topics
    · -- topic already present: both calls are no-ops on the registry
      have h1 : registryAdd subs sid c t ts1 = subs := by
        simp only [registryAdd, hsubs, hmem, if_true, reduceIte]
        exact setEntry_of_lookup_self subs sid e hsubs
      have h2 : registryAdd subs sid c t ts2 = subs := by
        simp only [registryAdd, hsubs, hmem, if_true, reduceIte]
        exact setEntry_of_lookup_self subs sid e hsubs
      rw [h1, h2]
      refine ⟨rfl, ?_⟩
      have hpos : 0 < (topicsOf subs sid).count t := by
        rw [topicsOf, hsubs]
        exact List.count_pos_iff.mpr (by simpa using hmem)
      rw [topicsOf, hsubs] at hpos ⊢
      simp only [topicsOf, hsubs] at hcount
      omega
    · -- topic absent: first call appends it, second call is a no-op
      have h1 : registryAdd subs sid c t ts1 =
          setEntry subs sid { e with topics := e.topics ++ [t] } := by
        simp [registryAdd, hsubs, hmem]
      have hlk : (setEntry subs sid { e with topics := e.topics ++ [t] }).lookup sid =
          some { e with topics := e.topics ++ [t] } :=
        lookup_setEntry_self subs sid _ (by simp [hsubs])
      have hmem2 : t ∈ ({ e with topics := e.topics ++ [t] } : RegEntry).topics := by
        simp
      have h2 : registryAdd (setEntry subs sid { e with topics := e.topics ++ [t] })
          sid c t ts2 = setEntry subs sid { e with topics := e.topics ++ [t] } := by
        simp only [registryAdd, hlk, hmem2, if_true, reduceIte]
        exact setEntry_of_lookup_self _ sid _ hlk
      rw [h1, h2]
      refine ⟨rfl, ?_⟩
      rw [topicsOf, hlk]
      have hzero : e.topics.count t = 0 := List.count_eq_zero.mpr hmem
      simp [List.count_append, hzero]

/-- C6 witness: registering the same `(sid, topic)` twice on an empty
registry leaves one occurrence of the topic. -/
theorem register_subscription_idem_witness :
    (topicsOf (register_subscription (register_subscription [] "s" "c" "t" 0).registry
      "s" "c" "t" 1).registry "s").count "t" = 1 :=
  (register_subscription_idem [] "s" "c" "t" 0 1 (by decide) (by decide) (by decide)
    (by simp [topicsOf, List.lookup])).2

/-- When every command execution succeeds, the flush loop is the FIFO
left fold of the commands and reports no error. -/
theorem flushLoop_of_noFail (fail : DbCommand → Store → Bool) (tx : Store)
    (batch : List DbCommand) (h : noFail fail tx batch) :
    flushLoop fail tx batch = (applyBatch tx batch, false) := by
  induction batch generalizing tx with
  | nil => rfl
  | cons c rest ih =>
      obtain ⟨h1, h2⟩ := h
      simp only [flushLoop, h1, Bool.false_eq_true, if_false, applyBatch, List.foldl_cons]
      exact ih (applyCmd tx c) h2

/-- When some command execution fails, the flush loop reports the error. -/
theorem flushLoop_of_fail (fail : DbCommand → Store → Bool) (tx : Store)
    (batch : List DbCommand) (h : ¬ noFail fail tx batch) :
    (flushLoop fail tx batch).2 = true := by
  induction batch generalizing tx with
  | nil => exact absurd trivial h
  | cons c rest ih =>
      by_cases hf : fail c tx
      · simp [flushLoop, hf]
      · have hr : ¬ noFail fail (applyCmd tx c) rest := fun hrest =>
          h ⟨by simpa using hf, hrest⟩
        simp only [flushLoop, hf, Bool.false_eq_true, if_false]
        exact ih (applyCmd tx c) hr

/-- C2: `flush_batch` drains the buffer in every path (no command is
retried), applies the buffered commands in FIFO order inside one
transaction, commits the fold of the batch when every command succeeds,
and leaves the store unchanged when any command fails (rollback) or the
transaction cannot be opened. -/
theorem flush_batch_spec (fail : DbCommand → Store → Bool) (beginOk : Bool)
    (db : Store) (batch : List DbCommand) :
    (flushBatch fail beginOk db batch).2 = []
    ∧ (beginOk = true → noFail fail db batch →
        (flushBatch fail beginOk db batch).1 = applyBatch db batch)
    ∧ (¬ noFail fail db batch → (flushBatch fail beginOk db batch).1 = db)
    ∧ (beginOk = false → (flushBatch fail beginOk db batch).1 = db) := by
  cases batch with
  | nil =>
      refine ⟨rfl, fun _ _ => rfl, fun h => absurd trivial h, fun _ => rfl⟩
  | cons c rest =>
      cases beginOk with
      | false => simp [flushBatch]
      | true =>
          by_cases hn : noFail fail db (c :: rest)
          · rw [flushBatch]
            simp only [List.isEmpty_cons, if_false, Bool.not_true, not_false_iff,
              flushLoop_of_noFail fail db (c :: rest) hn]
            exact ⟨by simp, fun _ _ => by simp, fun h => absurd hn h, fun h => by simp at h⟩
          · rw [flushBatch]
            have h2 := flushLoop_of_fail fail db (c :: rest) hn
            rcases hloop : flushLoop fail db (c :: rest) with ⟨tx, hasError⟩
            rw [hloop] at h2
            simp only at h2
            subst h2
            exact ⟨by simp, fun _ h => absurd h hn, fun _ => by simp, fun h => by simp at h⟩

/-- C2 witness: a batch whose single command succeeds commits its fold;
a batch whose command fails leaves the store unchanged, and in both
cases the buffer is emptied. -/
theorem flush_batch_spec_witness :
    (flushBatch (fun _ _ => false) true Store.empty
        [.SaveMessage "t" "m" "{}" "p" 0]).1 =
      applyBatch Store.empty [.SaveMessage "t" "m" "{}" "p" 0]
    ∧ (flushBatch (fun _ _ => true) true Store.empty
        [.SaveMessage "t" "m" "{}" "p" 0]).1 = Store.empty
    ∧ (flushBatch (fun _ _ => true) true Store.empty
        [.SaveMessage "t" "m" "{}" "p" 0]).2 = [] :=
  ⟨(flush_batch_spec _ _ _ _).2.1 rfl (by simp [noFail]),
   (flush_batch_spec _ _ _ _).2.2.1 (by simp [noFail]),
   (flush_batch_spec _ _ _ _).1⟩

/-- C5 counterexample: flushing `RegisterSubscription(s1, c1, t1)` and
then `RegisterSubscription(s1, c1, t2)` through the batcher does not
leave one persisted subscription row per topic — `INSERT OR REPLACE`
on the `sid`-keyed table replaces the `(s1, t1)` row, so no row for
`(s1, t1)` survives. -/
theorem register_subscription_not_composite :
    ¬ ((∃ r ∈ twoTopicStore.subscriptions, r.sid = "s1" ∧ r.topic = "t1") ∧
       (∃ r ∈ twoTopicStore.subscriptions, r.sid = "s1" ∧ r.topic = "t2")) := by
  have h : twoTopicStore.subscriptions =
      [⟨"s1", "c1", "t2", 1⟩] := rfl
  rw [h]
  simp

/-- C5 (amended): persisted subscriptions have per-`sid` identity — after
flushing two `RegisterSubscription` commands for the same session, the
subscriptions table holds exactly the later row for that session, the
earlier topic's row having been replaced. -/
theorem register_subscription_replaces (db : Store) (sid c t1 t2 : String)
    (ts1 ts2 : ℚ) :
    ((flushBatch (fun _ _ => false) true db
        [.RegisterSubscription sid c t1 ts1,
         .RegisterSubscription sid c t2 ts2]).1).subscriptions.filter
        (fun r => r.sid = sid) = [⟨sid, c, t2, ts2⟩] := by
  have happ : (flushBatch (fun _ _ => false) true db
      [.RegisterSubscription sid c t1 ts1,
       .RegisterSubscription sid c t2 ts2]).1 =
      applyBatch db
        [.RegisterSubscription sid c t1 ts1,
         .RegisterSubscription sid c t2 ts2] := by
    rw [flushBatch]
    rw [flushLoop_of_noFail _ _ _ (by simp [noFail])]
    simp
  rw [happ]
  simp only [applyBatch, List.foldl_cons, List.foldl_nil, applyCmd]
  simp [List.filter_append, List.filter_filter]

/-- C8 counterexample: register a subscription `(s1, c1, t1)` and commit
the session's `UnregisterClient`; the graph then contains no
`t1 → c1` consume link — consume links come from the live
`subscriptions` table only, and the disconnect deleted the row. -/
theorem consume_link_dropped_on_disconnect :
    Link.mk "t1" "c1" "consume" ∉
      (get_graph_state regThenUnregStore false false false false false).links := by
  have h : (get_graph_state regThenUnregStore false false false false false).links = [] :=
    rfl
  rw [h]
  simp

/-- C8 (amended): `get_graph_state` derives consume links from the
current `subscriptions` table only; after a session's
`RegisterSubscription` followed by its `UnregisterClient` commit, the
consume links are exactly those of the other sessions' remaining rows —
the disconnected session contributes none. -/
theorem graph_consume_links_live_only (db : Store) (sid c t : String) (ts : ℚ) :
    (get_graph_state
        (applyBatch db [.RegisterSubscription sid c t ts, .UnregisterClient sid])
        false false false false false).links.filter
        (fun l => l.link_type = "consume") =
      (db.subscriptions.filter (fun r => r.sid ≠ sid)).map
        (fun r => Link.mk r.topic r.consumer "consume") := by
  have hc : ∀ l : List SubRow,
      (l.map (fun r => Link.mk r.topic r.consumer "consume")).filter
        (fun l' => l'.link_type = "consume") =
      l.map (fun r => Link.mk r.topic r.consumer "consume") := by
    intro l
    induction l with
    | nil => rfl
    | cons hd tl ih => simp [ih]
  have hp : ∀ l : List (String × String),
      ((l.map (fun p => Link.mk p.1 p.2 "publish")).filter
        (fun l' => l'.link_type = "consume")) = [] := by
    intro l
    induction l with
    | nil => rfl
    | cons hd tl ih => simp [ih]
  have hsubs : (applyBatch db
      [.RegisterSubscription sid c t ts, .UnregisterClient sid]).subscriptions =
      db.subscriptions.filter (fun r => r.sid ≠ sid) := by
    simp only [applyBatch, List.foldl_cons, List.foldl_nil, applyCmd]
    simp [List.filter_append, List.filter_filter]
  have hmsgs : (applyBatch db
      [.RegisterSubscription sid c t ts, .UnregisterClient sid]).messages =
      db.messages := rfl
  simp only [get_graph_state, Bool.false_eq_true, if_false, hsubs, hmsgs,
    List.filter_append, hc, hp, List.append_nil]

/-- No effect of a `subscribe` request is a topic-channel send: both
transports only enqueue commands, emit bus events, and (on the raw
WebSocket transport) create channel receivers. -/
theorem subscribeFold_effect_not_send (sid c : String) (now : ℚ) (ws : Bool) :
    ∀ (topics : List String) (subs : Registry),
      ∀ e ∈ (subscribeFold subs sid c now ws topics).2,
        e.isTopicChannelSend = false := by
  intro topics
  induction topics with
  | nil => intro subs e he; simp [subscribeFold] at he
  | cons t rest ih =>
      intro subs e he
      simp only [subscribeFold, List.mem_append] at he
      rcases he with ((he'' | he'') | he') | he
      · obtain ⟨c', _, rfl⟩ := List.mem_map.mp he''
        rfl
      · obtain ⟨ev, _, rfl⟩ := List.mem_map.mp he''
        rfl
      · cases ws
        · simp at he'
        · simp at he'
          simp [he', Effect.isTopicChannelSend]
      · exact ih _ e he

/-- No effect of any operation is a send into a per-topic broadcast
channel: the publish path emits to Socket.IO rooms and the event bus,
and every other operation only enqueues commands and emits bus
events. -/
theorem stepOp_effect_not_send (ser : Serializer) (subs : Registry) (op : Op) :
    ∀ e ∈ (stepOp ser subs op).2, e.isTopicChannelSend = false := by
  intro e he
  cases op with
  | publish p now =>
      simp only [stepOp, List.mem_append] at he
      rcases he with (he | he) | he
      · obtain ⟨c', _, rfl⟩ := List.mem_map.mp he
        rfl
      · obtain ⟨ev, _, rfl⟩ := List.mem_map.mp he
        rfl
      · obtain ⟨r, _, rfl⟩ := List.mem_map.mp he
        rfl
  | sioSubscribe sid c topics now =>
      exact subscribeFold_effect_not_send sid c now false topics subs e he
  | wsSubscribe sid c topics now =>
      exact subscribeFold_effect_not_send sid c now true topics subs e he
  | consumed c t mid m now =>
      simp only [stepOp, List.mem_append] at he
      rcases he with he | he
      · obtain ⟨c', _, rfl⟩ := List.mem_map.mp he
        rfl
      · obtain ⟨ev, _, rfl⟩ := List.mem_map.mp he
        rfl
  | disconnect sid =>
      simp only [stepOp, List.mem_append] at he
      rcases he with he | he
      · obtain ⟨c', _, rfl⟩ := List.mem_map.mp he
        rfl
      · obtain ⟨ev, _, rfl⟩ := List.mem_map.mp he
        rfl
  | readOnlyOp => simp [stepOp] at he

/-- Over a whole trace, no produced effect is a topic-channel send. -/
theorem traceEffects_effect_not_send (ser : Serializer) :
    ∀ (ops : List Op) (subs : Registry),
      ∀ e ∈ traceEffects ser subs ops, e.isTopicChannelSend = false := by
  intro ops
  induction ops with
  | nil => intro subs e he; simp [traceEffects] at he
  | cons op rest ih =>
      intro subs e he
      simp only [traceEffects, List.mem_append] at he
      rcases he with he | he
      · exact stepOp_effect_not_send ser subs op e he
      · exact ih _ e he

/-- C4: no operation ever sends into the per-topic broadcast channels of
`AppState.topic_channels`; hence every raw-WebSocket topic-follower task
receives and forwards nothing, and such a session's egress consists of
relayed bus events alone. -/
theorem topic_channels_never_sent (ser : Serializer) (subs : Registry)
    (ops : List Op) :
    (∀ t, sentOnTopicChannel ser subs ops t = [])
    ∧ (∀ t, wsFollowerForwards ser subs ops t = [])
    ∧ (∀ (eventSer : BroadcastEvent → Option String) (followed : List String),
        wsEgressStrings ser eventSer subs ops followed =
          (traceBusEvents ser subs ops).filterMap eventSer) := by
  have hsent : ∀ t, sentOnTopicChannel ser subs ops t = [] := by
    intro t
    rw [sentOnTopicChannel, List.filterMap_eq_nil_iff]
    intro e he
    have hns := traceEffects_effect_not_send ser ops subs e he
    cases e <;> simp_all [Effect.isTopicChannelSend]
  refine ⟨hsent, fun t => hsent t, ?_⟩
  intro eventSer followed
  rw [wsEgressStrings]
  have hflat : followed.flatMap (wsFollowerForwards ser subs ops) = [] := by
    induction followed with
    | nil => rfl
    | cons t rest ih => simp [List.flatMap_cons, hsent t, ih, wsFollowerForwards]
  rw [hflat, List.append_nil]

/-- C3 counterexample: (i) on the Socket.IO transport a wildcard
subscriber receives a publish to the literal topic `"__all__"` twice
(once through the per-topic emission, once through the wildcard
emission); (ii) on the raw-WebSocket transport a wildcard subscribe
installs a follower on the channel named `"*"`, which delivers nothing
even after a publish — so that transport delivers nothing via the
wildcard room. -/
theorem wildcard_delivery_not_uniform :
    sioDeliveries (sioSubscribeRooms [] ["*"]) "__all__" = ["__all__", "__all__"]
    ∧ wsFollowerForwards (fun _ => "null") []
        [Op.wsSubscribe "s" "c" ["*"] 0,
         Op.publish ⟨"T", "m", Json.null, "P"⟩ 1] "*" = [] := by
  constructor
  · rfl
  · rfl

/-- C3 (amended): on the Socket.IO transport, subscribing with
`topics = ["*"]` leaves the session in exactly the wildcard room
`__all__`; every publish to a topic other than the literal room name
`"__all__"` is then delivered exactly once, through `__all__`, and not
through a per-topic room.  On the raw-WebSocket transport there is no
room delivery at all: a wildcard subscriber's topic follower forwards
nothing on any trace. -/
theorem sio_wildcard_subscription (rooms0 : List String) :
    sioSubscribeRooms rooms0 ["*"] = ["__all__"]
    ∧ (∀ topic : String, topic ≠ "__all__" →
        sioDeliveries (sioSubscribeRooms rooms0 ["*"]) topic = ["__all__"])
    ∧ (∀ (ser : Serializer) (subs : Registry) (ops : List Op),
        wsFollowerForwards ser subs ops "*" = []) := by
  have h1 : sioSubscribeRooms rooms0 ["*"] = ["__all__"] := rfl
  refine ⟨h1, ?_, ?_⟩
  · intro topic ht
    rw [h1]
    simp [sioDeliveries, ht]
  · intro ser subs ops
    rw [wsFollowerForwards, sentOnTopicChannel, List.filterMap_eq_nil_iff]
    intro e he
    have hns := traceEffects_effect_not_send ser ops subs e he
    cases e <;> simp_all [Effect.isTopicChannelSend]

/-- C3 witness: from any prior room set, a wildcard subscriber receives
a publish to topic `T` exactly once, through the `__all__` room. -/
theorem sio_wildcard_subscription_witness :
    sioDeliveries (sioSubscribeRooms ["old"] ["*"]) "T" = ["__all__"] :=
  (sio_wildcard_subscription ["old"]).2.1 "T" (by decide)

/-- Sorting by timestamp descending permutes the rows. -/
theorem sortByTsDesc_perm {α : Type} (ts : α → ℚ) (rows : List α) :
    (sortByTsDesc ts rows).Perm rows :=
  List.mergeSort_perm rows _

/-- The sort is pairwise newest-first. -/
theorem sortByTsDesc_pairwise {α : Type} (ts : α → ℚ) (rows : List α) :
    List.Pairwise (fun a b => ts b ≤ ts a) (sortByTsDesc ts rows) := by
  have h := @List.sorted_mergeSort α
    (fun a b : α => decide (ts b ≤ ts a))
    (fun a b c hab hbc => by
      simp only [decide_eq_true_eq] at hab hbc ⊢
      exact le_trans hbc hab)
    (fun a b => by
      simp only [Bool.or_eq_true, decide_eq_true_eq]
      exact le_total (ts b) (ts a))
    rows
  exact h.imp (fun hab => of_decide_eq_true hab)

/-- A row of `rows` outside the newest-`k` cut is no newer than any row
inside it. -/
theorem sorted_take_dominates {α : Type} (ts : α → ℚ) (rows : List α) (k : Nat)
    (r : α) (hr : r ∈ rows) (hnot : r ∉ (sortByTsDesc ts rows).take k) :
    ∀ x ∈ (sortByTsDesc ts rows).take k, ts r ≤ ts x := by
  intro x hx
  have hsorted := sortByTsDesc_pairwise ts rows
  have hrmem : r ∈ sortByTsDesc ts rows := (sortByTsDesc_perm ts rows).mem_iff.mpr hr
  rw [← List.take_append_drop k (sortByTsDesc ts rows)] at hsorted hrmem
  have hrdrop : r ∈ (sortByTsDesc ts rows).drop k := by
    rcases List.mem_append.mp hrmem with h | h
    · exact absurd h hnot
    · exact h
  exact (List.pairwise_append.mp hsorted).2.2 x hx r hrdrop

/-- Length bound for a filter whose predicate confines a `Nodup` key
into a finite list `K`. -/
theorem length_filter_key_mem_le {α : Type} (key : α → Nat) (rows : List α)
    (K : List Nat) (p : α → Bool) (hnd : (rows.map key).Nodup)
    (hkey : ∀ r, p r = true → key r ∈ K) :
    (rows.filter p).length ≤ K.length := by
  have hsub : (rows.filter p).map key ⊆ K := by
    intro x hx
    obtain ⟨r, hrmem, rfl⟩ := List.mem_map.mp hx
    exact hkey r (List.of_mem_filter hrmem)
  have hnd2 : ((rows.filter p).map key).Nodup :=
    ((@List.filter_sublist α p rows).map key).nodup hnd
  calc (rows.filter p).length
      = ((rows.filter p).map key).length := (List.length_map _ _).symm
    _ = ((rows.filter p).map key).toFinset.card :=
        (List.toFinset_card_of_nodup hnd2).symm
    _ ≤ K.toFinset.card := Finset.card_le_card
        (fun x hx => List.mem_toFinset.mpr (hsub (List.mem_toFinset.mp hx)))
    _ ≤ K.length := List.toFinset_card_le K

/-- Properties of a `ORDER BY timestamp DESC LIMIT 100` query followed
by a row projection `f` that preserves the timestamp. -/
theorem topQuery_spec {α β : Type} (ts : α → ℚ) (its : β → ℚ) (f : α → β)
    (hf : ∀ r, its (f r) = ts r) (rows : List α) :
    (((sortByTsDesc ts rows).take 100).map f).length ≤ 100
    ∧ List.Pairwise (fun a b => its b ≤ its a)
        (((sortByTsDesc ts rows).take 100).map f)
    ∧ (∀ i ∈ ((sortByTsDesc ts rows).take 100).map f, ∃ r ∈ rows, i = f r)
    ∧ (∀ r ∈ rows, r ∉ (sortByTsDesc ts rows).take 100 →
        ∀ i ∈ ((sortByTsDesc ts rows).take 100).map f, ts r ≤ its i) := by
  refine ⟨?_, ?_, ?_, ?_⟩
  · rw [List.length_map, List.length_take]
    exact min_le_left _ _
  · rw [List.pairwise_map]
    refine List.Pairwise.imp ?_
      (((sortByTsDesc_pairwise ts rows).sublist (List.take_sublist 100 _)))
    intro a b hab
    rw [hf a, hf b]
    exact hab
  · intro i hi
    obtain ⟨r, hrmem, rfl⟩ := List.mem_map.mp hi
    exact ⟨r, (sortByTsDesc_perm ts rows).mem_iff.mp
      ((List.take_sublist 100 _).mem hrmem), rfl⟩
  · intro r hr hnot i hi
    obtain ⟨x, hxmem, rfl⟩ := List.mem_map.mp hi
    rw [hf x]
    exact sorted_take_dominates ts rows 100 r hr hnot x hxmem

/-- C1: if a retention pass commits at time `now` (on tables whose
autoincrement ids are distinct), the messages table afterwards holds at
most `MAX_MESSAGES` rows none older than 24 h, and symmetrically the
consumptions table holds at most `MAX_CONSUMPTIONS` rows none older
than 24 h. -/
theorem purge_retention (failM failC : Bool) (now : ℚ) (db : Store)
    (hM : (db.messages.map (·.id)).Nodup)
    (hC : (db.consumptions.map (·.id)).Nodup)
    (hcommit : (purge_old_data failM failC now db).2 = true) :
    (purge_old_data failM failC now db).1.messages.length ≤ MAX_MESSAGES
    ∧ (∀ r ∈ (purge_old_data failM failC now db).1.messages,
        ¬ r.timestamp < now - 24 * 3600)
    ∧ (purge_old_data failM failC now db).1.consumptions.length ≤ MAX_CONSUMPTIONS
    ∧ (∀ r ∈ (purge_old_data failM failC now db).1.consumptions,
        ¬ r.timestamp < now - 24 * 3600) := by
  cases failM with
  | true => simp [purge_old_data] at hcommit
  | false =>
  cases failC with
  | true => simp [purge_old_data] at hcommit
  | false =>
  have hcut : MAX_AGE_HOURS * 3600 = (24 : ℚ) * 3600 := by norm_num [MAX_AGE_HOURS]
  simp only [purge_old_data, Bool.false_eq_true, if_false, hcut]
  refine ⟨?_, ?_, ?_, ?_⟩
  · have hlen := length_filter_key_mem_le (·.id) db.messages
      (((sortByTsDesc (·.timestamp) db.messages).take MAX_MESSAGES).map (·.id))
      (fun r => decide (r.id ∈ ((sortByTsDesc (·.timestamp) db.messages).take
        MAX_MESSAGES).map (·.id) ∧ ¬ r.timestamp < now - MAX_AGE_HOURS * 3600))
      hM
      (fun r hp => ((decide_eq_true_eq).mp hp).1)
    refine le_trans (le_trans (le_of_eq ?_) hlen) ?_
    · rw [hcut]
    · rw [List.length_map, List.length_take]
      exact min_le_left _ _
  · intro r hrm
    have := List.of_mem_filter hrm
    exact ((decide_eq_true_eq).mp this).2
  · have hlen := length_filter_key_mem_le (·.id) db.consumptions
      (((sortByTsDesc (·.timestamp) db.consumptions).take MAX_CONSUMPTIONS).map (·.id))
      (fun r => decide (r.id ∈ ((sortByTsDesc (·.timestamp) db.consumptions).take
        MAX_CONSUMPTIONS).map (·.id) ∧ ¬ r.timestamp < now - MAX_AGE_HOURS * 3600))
      hC
      (fun r hp => ((decide_eq_true_eq).mp hp).1)
    refine le_trans (le_trans (le_of_eq ?_) hlen) ?_
    · rw [hcut]
    · rw [List.length_map, List.length_take]
      exact min_le_left _ _
  · intro r hrm
    have := List.of_mem_filter hrm
    exact ((decide_eq_true_eq).mp this).2

/-- C1 witness: a committed purge at `now = 86410` on a two-row messages
table keeps the count within bounds. -/
theorem purge_retention_witness :
    (purge_old_data false false 86410
        ⟨[], [⟨0, "t", "m1", "null", "p", 100⟩, ⟨1, "t", "m2", "null", "p", 5⟩],
         [], 2, 0⟩).1.messages.length ≤ MAX_MESSAGES :=
  (purge_retention false false 86410 _ (by decide) (by decide) rfl).1

/-- C9: `get_messages` returns the empty list on a query error, and
otherwise at most 100 rows, newest first (pairwise descending
timestamps, each returned row from the store, with any row outside the
returned window no newer than a returned one); each stored body that
fails to parse is kept with the `{"error": "Invalid JSON", "raw": ...}`
envelope.  `get_consumptions` behaves symmetrically. -/
theorem get_messages_consumptions_spec (decode : Decoder) (db : Store) :
    get_messages decode true db = []
    ∧ (get_messages decode false db).length ≤ 100
    ∧ List.Pairwise (fun a b => b.timestamp ≤ a.timestamp)
        (get_messages decode false db)
    ∧ (∀ i ∈ get_messages decode false db,
        ∃ r ∈ db.messages, i = msgRowToInfo decode r)
    ∧ (∀ r ∈ messagesQuery db, decode r.message = none →
        (msgRowToInfo decode r).message = invalidJsonEnvelope r.message ∧
          msgRowToInfo decode r ∈ get_messages decode false db)
    ∧ (∀ r ∈ db.messages, r ∉ messagesQuery db →
        ∀ i ∈ get_messages decode false db, r.timestamp ≤ i.timestamp)
    ∧ get_consumptions decode true db = []
    ∧ (get_consumptions decode false db).length ≤ 100
    ∧ List.Pairwise (fun a b => b.timestamp ≤ a.timestamp)
        (get_consumptions decode false db)
    ∧ (∀ i ∈ get_consumptions decode false db,
        ∃ r ∈ db.consumptions, i = consRowToInfo decode r)
    ∧ (∀ r ∈ consumptionsQuery db, decode r.message = none →
        (consRowToInfo decode r).message = invalidJsonEnvelope r.message ∧
          consRowToInfo decode r ∈ get_consumptions decode false db)
    ∧ (∀ r ∈ db.consumptions, r ∉ consumptionsQuery db →
        ∀ i ∈ get_consumptions decode false db, r.timestamp ≤ i.timestamp) := by
  obtain ⟨hm1, hm2, hm3, hm4⟩ := topQuery_spec (·.timestamp)
    (MessageInfo.timestamp) (msgRowToInfo decode)
    (fun r => rfl) db.messages
  obtain ⟨hc1, hc2, hc3, hc4⟩ := topQuery_spec (·.timestamp)
    (ConsumptionInfo.timestamp) (consRowToInfo decode)
    (fun r => rfl) db.consumptions
  refine ⟨rfl, hm1, hm2, hm3, ?_, hm4, rfl, hc1, hc2, hc3, ?_, hc4⟩
  · intro r hr hdec
    exact ⟨by simp [msgRowToInfo, hdec], List.mem_map_of_mem _ hr⟩
  · intro r hr hdec
    exact ⟨by simp [consRowToInfo, hdec], List.mem_map_of_mem _ hr⟩

/-- C9 witness: a stored row whose body does not parse is kept, with the
error envelope substituted for its body. -/
theorem get_messages_consumptions_spec_witness :
    (msgRowToInfo (fun _ => none) ⟨0, "t", "m1", "oops", "p", 1⟩).message =
      invalidJsonEnvelope "oops"
    ∧ msgRowToInfo (fun _ => none) ⟨0, "t", "m1", "oops", "p", 1⟩ ∈
        get_messages (fun _ => none) false
          ⟨[], [⟨0, "t", "m1", "oops", "p", 1⟩], [], 1, 0⟩ :=
  (get_messages_consumptions_spec (fun _ => none)
      ⟨[], [⟨0, "t", "m1", "oops", "p", 1⟩], [], 1, 0⟩).2.2.2.2.1
    ⟨0, "t", "m1", "oops", "p", 1⟩ (by simp [messagesQuery, sortByTsDesc]) rfl

end PubSub
